import Mathlib

/-!
Module-log: a shallow embedding of the logging pipeline.

The development follows `interfaces/options.go`, `interfaces/config.go` and
`lib/lib.go`.

* Go `interface{}` payloads are the inductive `Value`.
* The library functions the code calls (`fmt.Sprintf`, `json.Marshal`,
  `time.Time.Format`, `strings.ToLower`, the escape sequences of `gchalk`)
  are the fields of `Lib`; every definition takes a `Lib`.  `goLib` is a
  concrete instance on a fragment, used to evaluate concrete calls.
* A Go map with string keys is an association list; `mapSet` is `m[k] = v`.
* Side effects (observer call, console line, file write) are recorded in
  the `events` of an `Outcome`; a Go panic sets `panicked`.
-/

namespace ModuleLog

/-! ## Payload values -/

/-- Dynamic values held by a Go `interface{}`.  `err` is an `error` built by
`errors.New` or `fmt.Errorf` (a pointer to a struct, description `text`),
`seq` is `[]interface{}`, `mapAny` is `map[string]interface{}`, `mapStr` is
`map[string]string`, `mapInt` is `map[string]int`, `func` is a function
value. -/
inductive Value where
  | nil
  | bool (b : Bool)
  | int (n : Int)
  | str (s : String)
  | err (text : String)
  | seq (xs : List Value)
  | mapAny (kvs : List (String × Value))
  | mapStr (kvs : List (String × String))
  | mapInt (kvs : List (String × Int))
  | func (id : Nat)

/-- The kinds of `reflect.Kind` the code distinguishes. -/
inductive Kind where
  | String
  | Map
  | Other
  deriving DecidableEq, Repr

/-- The result of `reflect.TypeOf(v)`, reduced to its kind: `none` is the nil
`reflect.Type` returned for a nil interface. -/
def reflectTypeOf : Value → Option Kind
  | .nil => none
  | .str _ => some Kind.String
  | .mapAny _ => some Kind.Map
  | .mapStr _ => some Kind.Map
  | .mapInt _ => some Kind.Map
  | _ => some Kind.Other

/-- Go map assignment `m[k] = v` on an association list with distinct keys. -/
def mapSet (m : List (String × Value)) (k : String) (v : Value) : List (String × Value) :=
  match m with
  | [] => [(k, v)]
  | (k0, v0) :: rest => if k0 = k then (k, v) :: rest else (k0, v0) :: mapSet rest k v

/-- Go map read `m[k]` with the presence flag. -/
def mapGet (m : List (String × Value)) (k : String) : Option Value :=
  match m with
  | [] => none
  | (k0, v0) :: rest => if k0 = k then some v0 else mapGet rest k

/-! ## interfaces/options.go -/

abbrev LogLevel := Int

def LogLevelTrace : LogLevel := 1
def LogLevelDebug : LogLevel := 2
def LogLevelNotice : LogLevel := 3
def LogLevelInfo : LogLevel := 4
def LogLevelWarning : LogLevel := 5
def LogLevelError : LogLevel := 6
def LogLevelSuccess : LogLevel := 7

abbrev DebugLevel := Int

def DebugLevelTrace : DebugLevel := 1
def DebugLevelVerbose : DebugLevel := 2
def DebugLevelInfo : DebugLevel := 3
def DebugLevelWarning : DebugLevel := 4
def DebugLevelError : DebugLevel := 5

/-- The lookup `levelstring[level]`; a missing key reads as the empty string. -/
def GetLogLevelString (level : LogLevel) : String :=
  if level = LogLevelTrace then "TRACE"
  else if level = LogLevelDebug then "DEBUG"
  else if level = LogLevelNotice then "NOTICE"
  else if level = LogLevelInfo then "INFO"
  else if level = LogLevelWarning then "WARNING"
  else if level = LogLevelError then "ERROR"
  else if level = LogLevelSuccess then "SUCCESS"
  else ""

/-- The lookup `levelPrintstring[level]`; a missing key reads as the empty string. -/
def GetLogLevelPrintString (level : LogLevel) : String :=
  if level = LogLevelTrace then "TRCE"
  else if level = LogLevelDebug then "DBUG"
  else if level = LogLevelNotice then "NTCE"
  else if level = LogLevelInfo then "INFO"
  else if level = LogLevelWarning then "WARN"
  else if level = LogLevelError then "EROR"
  else if level = LogLevelSuccess then "SUCS"
  else ""

abbrev OutputFormat := Int

def OutputFormatDefault : OutputFormat := 1
def OutputFormatJSON : OutputFormat := 2

/-- A wall-clock reading of `time.Time`: calendar fields and the zone offset in
seconds east of UTC. -/
structure Time where
  year : Nat
  month : Nat
  day : Nat
  hour : Nat
  minute : Nat
  second : Nat
  nano : Nat
  offset : Int

structure LoggerMessage where
  ID : String
  Level : LogLevel
  LevelName : String
  File : String
  Line : Int
  FuncName : String
  Time : Time
  Message : Value

structure Caller where
  File : String
  Line : Int
  Fname : String
  FnameShort : String

/-! ## interfaces/config.go -/

structure LoggingFile where
  Enable : Bool
  Output : String
  MaxSize : Int
  MaxAge : Int
  Compress : Bool
  Json : Bool

/-! ## Library functions -/

/-- Decimal digits of a natural number, most significant first. -/
def natDigits : Nat → Nat → List Char
  | 0, _ => []
  | fuel + 1, n =>
    if n < 10 then [Char.ofNat (48 + n)]
    else natDigits fuel (n / 10) ++ [Char.ofNat (48 + n % 10)]

def decimalNat (n : Nat) : String := String.mk (natDigits (n + 1) n)

/-- The text `%d` gives for an `int`. -/
def decimal (i : Int) : String :=
  match i with
  | Int.ofNat n => decimalNat n
  | Int.negSucc n => "-" ++ decimalNat (n + 1)

/-- The gchalk colour levels. -/
inductive ColorLevel where
  | LevelNone
  | LevelBasic
  | LevelAnsi256
  | LevelAnsi16m
  deriving DecidableEq, Repr

/-- The gchalk styles the code uses. -/
inductive Style where
  | Bold
  | White
  | BrightWhite
  | BrightBlue
  | BrightCyan
  | BrightMagenta
  | Magenta
  | Yellow
  | Red
  | Green
  deriving DecidableEq, Repr

/-- The text of the final `fmt.Sprintf("[%s][%s][%s][%s][%d] %s", ...)` of
`ParsingLog` on its five strings and one int. -/
def logLine (t code ns fn : String) (line : Int) (m : String) : String :=
  "[" ++ t ++ "][" ++ code ++ "][" ++ ns ++ "][" ++ fn ++ "][" ++ decimal line ++ "] " ++ m

/-- The library functions the logger calls.  `Sprintf` is `fmt.Sprintf`,
`Marshal` is `json.Marshal` (`none` when it returns an error), `Format` is
`time.Time.Format`, `ToLower` is `strings.ToLower`, `ansi` is the escape
wrapping gchalk applies at a colour-enabled level.  The three laws are the
documented results of `fmt.Sprintf` on the fixed formats the code uses with
string and int operands. -/
structure Lib where
  Sprintf : String → List Value → String
  Marshal : Value → Option String
  Format : Time → String → String
  ToLower : String → String
  ansi : List Style → String → String
  Sprintf_s : ∀ s : String, Sprintf "%s" [Value.str s] = s
  Sprintf_caller : ∀ (f : String) (l : Int),
    Sprintf "%s:%d" [Value.str f, Value.int l] = f ++ ":" ++ decimal l
  Sprintf_line : ∀ (t code ns fn : String) (l : Int) (m : String),
    Sprintf "[%s][%s][%s][%s][%d] %s"
      [Value.str t, Value.str code, Value.str ns, Value.str fn, Value.int l, Value.str m]
      = logLine t code ns fn l m

/-- A gchalk builder call: at `LevelNone` the text is returned unchanged. -/
def paint (lib : Lib) (level : ColorLevel) (styles : List Style) (s : String) : String :=
  if level = ColorLevel.LevelNone then s else lib.ansi styles s

/-- Go `filepath.Base` on a slash-separated path, on the reversed characters:
trailing slashes are dropped and the last element is kept. -/
def baseRev (rev : List Char) : List Char :=
  (rev.dropWhile (fun ch => ch = '/')).takeWhile (fun ch => ch ≠ '/')

/-- Go `filepath.Base`: `.` for the empty path, `/` for a path of slashes only,
otherwise the last element. -/
def filepathBase (path : String) : String :=
  if path.data = [] then "."
  else if path.data.all (fun ch => ch = '/') then "/"
  else String.mk (baseRev path.data.reverse).reverse

/-! ## lib/lib.go: the logger state -/

/-- The panics the code can raise. -/
inductive Panic where
  | nilPointer
  deriving DecidableEq, Repr

/-- The `lumberjack.Logger` behind `c.writer`. -/
structure Writer where
  Filename : String
  MaxSize : Int
  MaxAge : Int
  Compress : Bool

/-- The struct `Loggers`.  `onLogger` tells whether a handler is registered,
`color` is `none` while the pointer `c.color` is nil and otherwise holds the
level of the builder, `writer` is `none` while `c.writer` is nil. -/
structure Loggers where
  namespace_ : String
  version : String
  printToConsole : Bool
  fileConfig : LoggingFile
  level : DebugLevel
  onLogger : Bool
  outputFormat : OutputFormat
  color : Option ColorLevel
  writer : Option Writer

/-- One observable effect of a logging call.  `store` marks the entry into
`Loggers.store`, `onLogger` is a call of the registered handler, `console` is
`fmt.Println(line)`, `file` is `c.writer.Write(bytes)`. -/
inductive Event where
  | store (msg : LoggerMessage) (raw : String)
  | onLogger (msg : LoggerMessage) (raw : String)
  | console (line : String)
  | file (bytes : String)

/-- What a call did: the effects in order, and whether it ended in a panic. -/
structure Outcome where
  events : List Event
  panicked : Bool

/-- Run `b` after `a` unless `a` panicked. -/
def Outcome.andThen (a b : Outcome) : Outcome :=
  if a.panicked then a else ⟨a.events ++ b.events, b.panicked⟩

/-- The zero value of `LoggingFile`. -/
def LoggingFile.zero : LoggingFile :=
  { Enable := false, Output := "", MaxSize := 0, MaxAge := 0, Compress := false, Json := false }

def NewLib : Loggers :=
  { namespace_ := "", version := "", printToConsole := true, fileConfig := LoggingFile.zero,
    level := DebugLevelVerbose, onLogger := false, outputFormat := OutputFormatDefault,
    color := none, writer := none }

def Init (c : Loggers) (namespace_ version : String) : Loggers :=
  let color := if c.outputFormat = OutputFormatJSON then ColorLevel.LevelNone
    else ColorLevel.LevelAnsi16m
  { c with color := some color, namespace_ := namespace_, version := version }

/-- The method `DisableColor`; `c.color.SetLevel` on a nil builder panics. -/
def DisableColor (c : Loggers) (val : Bool) : Except Panic Loggers :=
  match c.color with
  | none => .error Panic.nilPointer
  | some _ =>
    let color := if val then ColorLevel.LevelNone else ColorLevel.LevelAnsi16m
    let color := if c.outputFormat = OutputFormatJSON then ColorLevel.LevelNone else color
    .ok { c with color := some color }

def SetLogLevel (c : Loggers) (level : DebugLevel) : Loggers :=
  { c with level := level }

def SetPrintToConsole (c : Loggers) (pr : Bool) : Loggers :=
  { c with printToConsole := pr }

def SetOnLoggerHandler (c : Loggers) (registered : Bool) : Loggers :=
  { c with onLogger := registered }

def SetOutputFormat (c : Loggers) (op : OutputFormat) : Loggers :=
  { c with outputFormat := op }

/-! ## lib/lib.go: building and rendering a record -/

/-- The loop of `createMsg` over its variadic `input`: the elements of every
`[]interface{}` member are appended, any other member is skipped. -/
def flattenInput (input : List Value) : List Value :=
  input.foldl (fun inp s => match s with
    | Value.seq val => inp ++ val
    | _ => inp) []

/-- The method `createMsg`; `id` is the result of `uuid.New().String()` and `now`
the result of `time.Now()`. -/
def createMsg (lib : Lib) (id : String) (now : Time) (level : LogLevel) (caller : Caller)
    (format : Value) (input : List Value) : LoggerMessage :=
  let inp := flattenInput input
  let msgS : Value :=
    match format with
    | Value.str val => Value.str (lib.Sprintf val inp)
    | Value.err text => Value.str (lib.Sprintf text inp)
    | other => other
  { ID := id, Time := now, Level := level, LevelName := GetLogLevelString level,
    File := caller.File, Line := caller.Line, FuncName := caller.Fname, Message := msgS }

/-- The map `jsonOut` of `createJSONOutput` just before it is marshalled.
`vv.Kind()` on the nil type of a nil payload panics. -/
def jsonOut (lib : Lib) (msg : LoggerMessage) : Except Panic (List (String × Value)) :=
  let m : List (String × Value) := []
  let m := mapSet m "logid" (Value.str msg.ID)
  let m := mapSet m "level" (Value.str (lib.ToLower msg.LevelName))
  let m := mapSet m "time" (Value.str (lib.Format msg.Time "2006-01-02T15:04:05.000-0700"))
  let m := mapSet m "caller"
    (Value.str (lib.Sprintf "%s:%d" [Value.str msg.File, Value.int msg.Line]))
  match reflectTypeOf msg.Message with
  | none => .error Panic.nilPointer
  | some Kind.String => .ok (mapSet m "message" msg.Message)
  | some Kind.Map =>
    match msg.Message with
    | Value.mapAny val => .ok (val.foldl (fun acc kv => mapSet acc kv.1 kv.2) m)
    | Value.mapStr val => .ok (val.foldl (fun acc kv => mapSet acc kv.1 (Value.str kv.2)) m)
    | _ => .ok (mapSet m "message" msg.Message)
  | some Kind.Other => .ok (mapSet m "message" msg.Message)

/-- The method `createJSONOutput`: the marshalled `jsonOut`, or `none` for the nil
slice returned when marshalling fails. -/
def createJSONOutput (lib : Lib) (msg : LoggerMessage) : Except Panic (Option String) :=
  match jsonOut lib msg with
  | .error p => .error p
  | .ok m => .ok (lib.Marshal (Value.mapAny m))

/-- The text `mMsg` of `ParsingLog`: the `%s` formatting of the payload, replaced
by its JSON encoding when the payload is not of string kind and marshalling
succeeds. -/
def messageText (lib : Lib) (msg : LoggerMessage) : String :=
  let mMsg := lib.Sprintf "%s" [msg.Message]
  match reflectTypeOf msg.Message with
  | some Kind.String => mMsg
  | _ =>
    match lib.Marshal msg.Message with
    | some values => values
    | none => mMsg

/-- The method `ParsingLog`; `c.color.WithBold()` on a nil builder panics. -/
def ParsingLog (lib : Lib) (c : Loggers) (msg : LoggerMessage) : Except Panic String :=
  match c.color with
  | none => .error Panic.nilPointer
  | some lv =>
    let mMsg := messageText lib msg
    let code := GetLogLevelPrintString msg.Level
    let styled : String × String :=
      if msg.Level = LogLevelTrace then
        (paint lib lv [Style.Bold, Style.BrightWhite] code, paint lib lv [Style.Bold, Style.White] mMsg)
      else if msg.Level = LogLevelDebug then
        (paint lib lv [Style.Bold, Style.BrightBlue] code, paint lib lv [Style.Bold, Style.White] mMsg)
      else if msg.Level = LogLevelNotice then
        (paint lib lv [Style.Bold, Style.BrightCyan] code,
          paint lib lv [Style.Bold, Style.BrightCyan] mMsg)
      else if msg.Level = LogLevelInfo then
        (paint lib lv [Style.Bold, Style.BrightMagenta] code,
          paint lib lv [Style.Bold, Style.BrightMagenta] mMsg)
      else if msg.Level = LogLevelWarning then
        (paint lib lv [Style.Bold, Style.Yellow] code, paint lib lv [Style.Bold, Style.Yellow] mMsg)
      else if msg.Level = LogLevelError then
        (paint lib lv [Style.Bold, Style.Red] code, paint lib lv [Style.Bold, Style.Red] mMsg)
      else if msg.Level = LogLevelSuccess then
        (paint lib lv [Style.Bold, Style.Green] code, paint lib lv [Style.Bold, Style.Green] mMsg)
      else ("", "")
    .ok (lib.Sprintf "[%s][%s][%s][%s][%d] %s"
      [Value.str (paint lib lv [Style.Magenta] (lib.Format msg.Time "3:04:05 PM")),
       Value.str styled.1,
       Value.str (paint lib lv [Style.BrightWhite] c.namespace_),
       Value.str (paint lib lv [Style.BrightCyan] (filepathBase msg.FuncName)),
       Value.int msg.Line,
       Value.str styled.2])

/-! ## lib/lib.go: routing -/

/-- The block of `store` guarded by `c.outputFormat == OutputFormatDefault`. -/
def storeDefault (lib : Lib) (c : Loggers) (msg : LoggerMessage) (raw : String) : Outcome :=
  let console : List Event := if c.printToConsole then [Event.console raw] else []
  if c.fileConfig.Enable then
    match c.writer with
    | none => ⟨console, false⟩
    | some _ =>
      if !c.fileConfig.Json then ⟨console ++ [Event.file (raw ++ "\n")], false⟩
      else
        match createJSONOutput lib msg with
        | .error _ => ⟨console, true⟩
        | .ok none => ⟨console, false⟩
        | .ok (some out) => ⟨console ++ [Event.file (out ++ "\n")], false⟩
  else ⟨console, false⟩

/-- The block of `store` guarded by `c.outputFormat == OutputFormatJSON`. -/
def storeJSON (lib : Lib) (c : Loggers) (msg : LoggerMessage) : Outcome :=
  match createJSONOutput lib msg with
  | .error _ => ⟨[], true⟩
  | .ok none => ⟨[], false⟩
  | .ok (some ssd) =>
    let console : List Event := if c.printToConsole then [Event.console ssd] else []
    let file : List Event :=
      if c.fileConfig.Enable then
        match c.writer with
        | none => []
        | some _ => [Event.file (ssd ++ "\n")]
      else []
    ⟨console ++ file, false⟩

/-- The method `store`. -/
def store (lib : Lib) (c : Loggers) (msg : LoggerMessage) (raw : String) : Outcome :=
  let entry : Outcome := ⟨[Event.store msg raw], false⟩
  let observer : Outcome := ⟨if c.onLogger then [Event.onLogger msg raw] else [], false⟩
  let plain : Outcome :=
    if c.outputFormat = OutputFormatDefault then storeDefault lib c msg raw else ⟨[], false⟩
  let json : Outcome :=
    if c.outputFormat = OutputFormatJSON then storeJSON lib c msg else ⟨[], false⟩
  ((entry.andThen observer).andThen plain).andThen json

/-- The text `raw` that `output` computes before filtering. -/
def rawText (lib : Lib) (c : Loggers) (msg : LoggerMessage) : Except Panic String :=
  if c.outputFormat = OutputFormatDefault then ParsingLog lib c msg else .ok ""

/-- The method `output`. -/
def output (lib : Lib) (c : Loggers) (msg : LoggerMessage) : Outcome :=
  match rawText lib c msg with
  | .error _ => ⟨[], true⟩
  | .ok raw =>
    if c.level = DebugLevelTrace then store lib c msg raw
    else if c.level = DebugLevelVerbose then
      if msg.Level = LogLevelNotice ∨ msg.Level = LogLevelInfo ∨ msg.Level = LogLevelWarning
          ∨ msg.Level = LogLevelSuccess ∨ msg.Level = LogLevelError then
        store lib c msg raw
      else ⟨[], false⟩
    else if c.level = DebugLevelInfo then
      if msg.Level = LogLevelNotice ∨ msg.Level = LogLevelInfo ∨ msg.Level = LogLevelWarning
          ∨ msg.Level = LogLevelSuccess ∨ msg.Level = LogLevelError then
        store lib c msg raw
      else ⟨[], false⟩
    else if c.level = DebugLevelWarning then
      if msg.Level = LogLevelWarning ∨ msg.Level = LogLevelError then store lib c msg raw
      else ⟨[], false⟩
    else if c.level = DebugLevelError then
      if msg.Level = LogLevelError then store lib c msg raw
      else ⟨[], false⟩
    else ⟨[], false⟩

/-! ## lib/lib.go: the public logging calls

Each call passes its variadic slice `input` to `createMsg` as one argument,
so `createMsg` receives the one-element list `[Value.seq input]`. -/

def Trace (lib : Lib) (c : Loggers) (id : String) (now : Time) (caller : Caller)
    (format : Value) (input : List Value) : Outcome :=
  output lib c (createMsg lib id now LogLevelTrace caller format [Value.seq input])

def Debug (lib : Lib) (c : Loggers) (id : String) (now : Time) (caller : Caller)
    (format : Value) (input : List Value) : Outcome :=
  output lib c (createMsg lib id now LogLevelDebug caller format [Value.seq input])

def Notice (lib : Lib) (c : Loggers) (id : String) (now : Time) (caller : Caller)
    (format : Value) (input : List Value) : Outcome :=
  output lib c (createMsg lib id now LogLevelNotice caller format [Value.seq input])

def Info (lib : Lib) (c : Loggers) (id : String) (now : Time) (caller : Caller)
    (format : Value) (input : List Value) : Outcome :=
  output lib c (createMsg lib id now LogLevelInfo caller format [Value.seq input])

def Warning (lib : Lib) (c : Loggers) (id : String) (now : Time) (caller : Caller)
    (format : Value) (input : List Value) : Outcome :=
  output lib c (createMsg lib id now LogLevelWarning caller format [Value.seq input])

def Success (lib : Lib) (c : Loggers) (id : String) (now : Time) (caller : Caller)
    (format : Value) (input : List Value) : Outcome :=
  output lib c (createMsg lib id now LogLevelSuccess caller format [Value.seq input])

def Error (lib : Lib) (c : Loggers) (id : String) (now : Time) (caller : Caller)
    (format : Value) (input : List Value) : Outcome :=
  output lib c (createMsg lib id now LogLevelError caller format [Value.seq input])

/-- The method `SetLogFile`.  `mkdirErr` is the error of `os.MkdirAll`, if any;
it is reported through `c.Error(err)`, whose record takes `id`, `now` and
`caller`.  The result is the new state and the effects of that report. -/
def SetLogFile (lib : Lib) (c : Loggers) (config : LoggingFile) (mkdirErr : Option String)
    (id : String) (now : Time) (caller : Caller) : Loggers × Outcome :=
  let c := { c with fileConfig := config }
  match mkdirErr with
  | some text => (c, Error lib c id now caller (Value.err text) [])
  | none =>
    if c.fileConfig.Enable then
      ({ c with writer := some { Filename := c.fileConfig.Output, MaxSize := c.fileConfig.MaxSize,
                                 MaxAge := c.fileConfig.MaxAge, Compress := c.fileConfig.Compress } },
        ⟨[], false⟩)
    else (c, ⟨[], false⟩)

/-! ## A concrete library on a fragment

`goLib` evaluates the library calls on a fragment of their inputs: the verbs
`%d`, `%s`, `%v` and `%%` of `fmt.Sprintf` on nil, bool, int, string, error
and slice operands, the layouts `3:04:05 PM` and
`2006-01-02T15:04:05.000-0700` of `time.Time.Format`, ASCII letters for
`strings.ToLower`.  Outside the fragment the result is the text `unmodelled`;
no statement below evaluates it there. -/

def unmodelled : String := "<?>"

/-- The text of `%T`. -/
def typeName : Value → String
  | .nil => "<nil>"
  | .bool _ => "bool"
  | .int _ => "int"
  | .str _ => "string"
  | .err _ => "*errors.errorString"
  | .seq _ => "[]interface {}"
  | .mapAny _ => "map[string]interface {}"
  | .mapStr _ => "map[string]string"
  | .mapInt _ => "map[string]int"
  | .func _ => "func()"

/-- The marker `%!verb(type=value)` of a verb that does not fit its operand. -/
def badVerb (verb : Char) (ty text : String) : String :=
  "%!" ++ String.mk [verb] ++ "(" ++ ty ++ "=" ++ text ++ ")"

mutual
/-- One operand under one verb; `top` tells a direct operand from a slice
element. -/
def fmtValue (verb : Char) (top : Bool) : Value → String
  | .nil =>
    if top then (if verb = 'v' then "<nil>" else "%!" ++ String.mk [verb] ++ "(<nil>)")
    else "<nil>"
  | .bool b =>
    if verb = 'v' then (if b then "true" else "false")
    else badVerb verb "bool" (if b then "true" else "false")
  | .int n => if verb = 'd' ∨ verb = 'v' then decimal n else badVerb verb "int" (decimal n)
  | .str s => if verb = 's' ∨ verb = 'v' then s else badVerb verb "string" s
  | .err text => if verb = 's' ∨ verb = 'v' then text else unmodelled
  | .seq xs => "[" ++ " ".intercalate (fmtValues verb xs) ++ "]"
  | _ => unmodelled
/-- The elements of a slice under one verb. -/
def fmtValues (verb : Char) : List Value → List String
  | [] => []
  | x :: xs => fmtValue verb false x :: fmtValues verb xs
end

/-- The marker `%!(EXTRA type=value, ...)` for operands no verb consumed. -/
def extraArgs (args : List Value) : String :=
  "%!(EXTRA " ++ ", ".intercalate (args.map (fun a =>
    match a with
    | Value.nil => "<nil>"
    | other => typeName other ++ "=" ++ fmtValue 'v' true other)) ++ ")"

/-- The scan of `fmt.Sprintf` over the characters of the format. -/
def sprintfAux : List Char → List Value → String
  | [], [] => ""
  | [], a :: args => extraArgs (a :: args)
  | ch :: rest, args =>
    if ch = '%' then
      match rest with
      | [] => "%!(NOVERB)" ++ sprintfAux [] args
      | verb :: rest1 =>
        if verb = '%' then "%" ++ sprintfAux rest1 args
        else if verb = 'd' ∨ verb = 's' ∨ verb = 'v' then
          match args with
          | [] => "%!" ++ String.mk [verb] ++ "(MISSING)" ++ sprintfAux rest1 []
          | a :: args1 => fmtValue verb true a ++ sprintfAux rest1 args1
        else unmodelled
    else String.mk [ch] ++ sprintfAux rest args

/-- The Go function `fmt.Sprintf` on the fragment. -/
def goSprintf (format : String) (args : List Value) : String :=
  sprintfAux format.data args

/-- JSON string escaping of the quote, the backslash, the common control
characters and the HTML characters. -/
def jsonEscape : List Char → List Char
  | [] => []
  | ch :: rest =>
    (if ch = '"' then ['\\', '"']
     else if ch = '\\' then ['\\', '\\']
     else if ch = '\n' then ['\\', 'n']
     else if ch = '\r' then ['\\', 'r']
     else if ch = '\t' then ['\\', 't']
     else if ch = '<' then "\\u003c".data
     else if ch = '>' then "\\u003e".data
     else if ch = '&' then "\\u0026".data
     else [ch]) ++ jsonEscape rest

def jsonString (s : String) : String := "\"" ++ String.mk (jsonEscape s.data) ++ "\""

/-- Collect the encodings of the members, failing when one fails. -/
def joinAll : List (Option String) → Option (List String)
  | [] => some []
  | none :: _ => none
  | some x :: rest => (joinAll rest).map (fun xs => x :: xs)

mutual
/-- The function `json.Marshal` as compact text; a function value is not
serialisable.  Map members come out in the order of the association list. -/
def goMarshal : Value → Option String
  | .nil => some "null"
  | .bool b => some (if b then "true" else "false")
  | .int n => some (decimal n)
  | .str s => some (jsonString s)
  | .err _ => some "\x7b\x7d"
  | .seq xs => (joinAll (goMarshalList xs)).map (fun ms => "[" ++ ",".intercalate ms ++ "]")
  | .mapAny kvs =>
    (joinAll (goMarshalMembers kvs)).map (fun ms => "\x7b" ++ ",".intercalate ms ++ "\x7d")
  | .mapStr kvs =>
    some ("\x7b" ++ ",".intercalate (kvs.map (fun kv => jsonString kv.1 ++ ":" ++ jsonString kv.2))
      ++ "\x7d")
  | .mapInt kvs =>
    some ("\x7b" ++ ",".intercalate (kvs.map (fun kv => jsonString kv.1 ++ ":" ++ decimal kv.2))
      ++ "\x7d")
  | .func _ => none
/-- The encodings of the elements of a slice. -/
def goMarshalList : List Value → List (Option String)
  | [] => []
  | x :: xs => goMarshal x :: goMarshalList xs
/-- The encodings of the members of a map. -/
def goMarshalMembers : List (String × Value) → List (Option String)
  | [] => []
  | (k, v) :: rest => (goMarshal v).map (fun j => jsonString k ++ ":" ++ j) :: goMarshalMembers rest
end

/-- A number in decimal, padded with zeros to `width` digits. -/
def pad (width n : Nat) : String :=
  String.mk (List.replicate (width - (decimalNat n).length) '0') ++ decimalNat n

/-- The method `time.Time.Format` on the two layouts the code uses. -/
def goFormat (t : Time) (layout : String) : String :=
  if layout = "3:04:05 PM" then
    decimalNat (if t.hour % 12 = 0 then 12 else t.hour % 12) ++ ":" ++ pad 2 t.minute ++ ":"
      ++ pad 2 t.second ++ (if t.hour < 12 then " AM" else " PM")
  else if layout = "2006-01-02T15:04:05.000-0700" then
    pad 4 t.year ++ "-" ++ pad 2 t.month ++ "-" ++ pad 2 t.day ++ "T" ++ pad 2 t.hour ++ ":"
      ++ pad 2 t.minute ++ ":" ++ pad 2 t.second ++ "." ++ pad 3 (t.nano / 1000000)
      ++ (if t.offset < 0 then "-" else "+") ++ pad 2 (t.offset.natAbs / 3600)
      ++ pad 2 (t.offset.natAbs % 3600 / 60)
  else unmodelled

/-- The function `strings.ToLower` on ASCII letters. -/
def goToLower (s : String) : String := String.mk (s.data.map Char.toLower)

/-- The SGR code that opens a style and the one that closes it. -/
def sgr : Style → String × String
  | .Bold => ("\x1b[1m", "\x1b[22m")
  | .White => ("\x1b[37m", "\x1b[39m")
  | .BrightWhite => ("\x1b[97m", "\x1b[39m")
  | .BrightBlue => ("\x1b[94m", "\x1b[39m")
  | .BrightCyan => ("\x1b[96m", "\x1b[39m")
  | .BrightMagenta => ("\x1b[95m", "\x1b[39m")
  | .Magenta => ("\x1b[35m", "\x1b[39m")
  | .Yellow => ("\x1b[33m", "\x1b[39m")
  | .Red => ("\x1b[31m", "\x1b[39m")
  | .Green => ("\x1b[32m", "\x1b[39m")

/-- The escape wrapping of a text free of escape codes and line breaks: the
styles open outermost first and close in the reverse order. -/
def goAnsi : List Style → String → String
  | [], s => s
  | st :: rest, s => (sgr st).1 ++ goAnsi rest s ++ (sgr st).2

/-- The concrete library. -/
def goLib : Lib :=
  { Sprintf := goSprintf, Marshal := goMarshal, Format := goFormat, ToLower := goToLower,
    ansi := goAnsi,
    Sprintf_s := by
      intro s
      show sprintfAux ['%', 's'] [Value.str s] = s
      simp [sprintfAux, fmtValue]
    Sprintf_caller := by
      intro f l
      show sprintfAux ['%', 's', ':', '%', 'd'] [Value.str f, Value.int l] = _
      simp [sprintfAux, fmtValue, String.append_assoc]
    Sprintf_line := by
      intro t code ns fn l m
      show sprintfAux ['[', '%', 's', ']', '[', '%', 's', ']', '[', '%', 's', ']',
        '[', '%', 's', ']', '[', '%', 'd', ']', ' ', '%', 's']
        [Value.str t, Value.str code, Value.str ns, Value.str fn, Value.int l, Value.str m] = _
      simp only [sprintfAux, fmtValue, logLine]
      apply String.ext
      simp [String.data_append] }

/-! ## The filter table of the specification -/

/-- The five thresholds. -/
def thresholds : List DebugLevel :=
  [DebugLevelTrace, DebugLevelVerbose, DebugLevelInfo, DebugLevelWarning, DebugLevelError]

/-- The seven levels. -/
def levels : List LogLevel :=
  [LogLevelTrace, LogLevelDebug, LogLevelNotice, LogLevelInfo, LogLevelWarning, LogLevelSuccess,
    LogLevelError]

/-- The pass-set of a threshold as the specification tabulates it: Trace passes
all levels, Verbose and Info pass Notice, Info, Warning, Success and Error,
Warning passes Warning and Error, Error passes Error. -/
def passSet (T : DebugLevel) : List LogLevel :=
  if T = DebugLevelTrace then levels
  else if T = DebugLevelVerbose ∨ T = DebugLevelInfo then
    [LogLevelNotice, LogLevelInfo, LogLevelWarning, LogLevelSuccess, LogLevelError]
  else if T = DebugLevelWarning then [LogLevelWarning, LogLevelError]
  else if T = DebugLevelError then [LogLevelError]
  else []

/-! ## Setter sequences -/

/-- One call of a setter.  `SetLogFile` carries the result of `os.MkdirAll` and
the identifier, time and caller of the record reporting its failure. -/
inductive Setter where
  | SetOutputFormat (op : OutputFormat)
  | DisableColor (val : Bool)
  | SetLogLevel (level : DebugLevel)
  | SetPrintToConsole (pr : Bool)
  | SetLogFile (config : LoggingFile) (mkdirErr : Option String) (id : String) (now : Time)
      (caller : Caller)

/-- The state after one setter call, or the panic it raised. -/
def applySetter (lib : Lib) (c : Loggers) : Setter → Except Panic Loggers
  | .SetOutputFormat op => .ok (SetOutputFormat c op)
  | .DisableColor val => DisableColor c val
  | .SetLogLevel level => .ok (SetLogLevel c level)
  | .SetPrintToConsole pr => .ok (SetPrintToConsole c pr)
  | .SetLogFile config mkdirErr id now caller =>
    let r := SetLogFile lib c config mkdirErr id now caller
    if r.2.panicked then .error Panic.nilPointer else .ok r.1

/-- The state after a sequence of setter calls. -/
def applySetters (lib : Lib) (c : Loggers) : List Setter → Except Panic Loggers
  | [] => .ok c
  | s :: rest =>
    match applySetter lib c s with
    | .error p => .error p
    | .ok c1 => applySetters lib c1 rest

/-- The invariant of the specification: JSON output format forces the colour
level `LevelNone`. -/
def jsonForcesNoColor (c : Loggers) : Prop :=
  c.outputFormat = OutputFormatJSON → c.color = some ColorLevel.LevelNone

/-! ## Reading an outcome -/

/-- The calls of the registered handler, in order. -/
def observerCalls (o : Outcome) : List (LoggerMessage × String) :=
  o.events.filterMap (fun e => match e with
    | Event.onLogger msg raw => some (msg, raw)
    | _ => none)

/-- The lines printed on the console, in order. -/
def consoleWrites (o : Outcome) : List String :=
  o.events.filterMap (fun e => match e with
    | Event.console line => some line
    | _ => none)

/-- The byte strings written to the file sink, in order. -/
def fileWrites (o : Outcome) : List String :=
  o.events.filterMap (fun e => match e with
    | Event.file bytes => some bytes
    | _ => none)

/-- The four fixed members `createJSONOutput` sets first. -/
def fixedMembers (lib : Lib) (msg : LoggerMessage) : List (String × Value) :=
  [("logid", Value.str msg.ID),
   ("level", Value.str (lib.ToLower msg.LevelName)),
   ("time", Value.str (lib.Format msg.Time "2006-01-02T15:04:05.000-0700")),
   ("caller", Value.str (msg.File ++ ":" ++ decimal msg.Line))]

/-- The message text of a plain-text line as the amended claim C9 words it: the
payload itself when it is a string, else its JSON encoding when it has one,
else its `%s` formatting. -/
def lineMessage (lib : Lib) (payload : Value) : String :=
  match payload with
  | Value.str s => s
  | other =>
    match lib.Marshal other with
    | some j => j
    | none => lib.Sprintf "%s" [other]

/-! ## Sample inputs -/

def sampleTime : Time :=
  { year := 2024, month := 3, day := 9, hour := 15, minute := 4, second := 5,
    nano := 7000000, offset := 25200 }

def sampleCaller : Caller :=
  { File := "/srv/app/main.go", Line := 42, Fname := "github.com/acme/app/pkg.Run",
    FnameShort := "acme/app/pkg.Run" }

/-- A logger after `NewLib` and `Init`. -/
def sampleLogger : Loggers := Init NewLib "svc" "1.0"

/-- A file configuration with the sink enabled and JSON forced. -/
def sampleFile : LoggingFile :=
  { Enable := true, Output := "./logs/app.log", MaxSize := 100, MaxAge := 28, Compress := false,
    Json := true }

/-- A record with a chosen level and payload. -/
def sampleRecord (level : LogLevel) (payload : Value) : LoggerMessage :=
  { ID := "id-1", Level := level, LevelName := GetLogLevelString level, File := "/srv/app/main.go",
    Line := 42, FuncName := "github.com/acme/app/pkg.Run", Time := sampleTime, Message := payload }

/-- The sample logger after `DisableColor(true)`. -/
def sampleNoColor : Loggers :=
  match DisableColor sampleLogger true with
  | .ok c => c
  | .error _ => sampleLogger

/-- The sample logger in JSON output format with a handler registered. -/
def sampleObserved : Loggers :=
  SetOnLoggerHandler (SetOutputFormat sampleLogger OutputFormatJSON) true

/-- The sample logger after `SetLogFile` with the sink enabled and JSON forced. -/
def sampleFiled : Loggers :=
  (SetLogFile goLib sampleLogger sampleFile none "id-0" sampleTime sampleCaller).1

/-! ## Helper lemmas -/

theorem store_events_head (lib : Lib) (c : Loggers) (msg : LoggerMessage) (raw : String) :
    ∃ rest, (store lib c msg raw).events = Event.store msg raw :: rest := by
  simp only [store, Outcome.andThen]
  split_ifs <;> simp

theorem rawText_ok (lib : Lib) (c : Loggers) (msg : LoggerMessage) (lv : ColorLevel)
    (hinit : c.color = some lv) : ∃ raw, rawText lib c msg = .ok raw := by
  unfold rawText ParsingLog
  rw [hinit]
  split_ifs <;> exact ⟨_, rfl⟩

/-- After a successful `rawText`, `output` is `store` on the pass-set and has no
effect off it. -/
theorem output_eq_store (lib : Lib) (c : Loggers) (msg : LoggerMessage) (raw : String)
    (hraw : rawText lib c msg = .ok raw) (hT : c.level ∈ thresholds) (hL : msg.Level ∈ levels) :
    output lib c msg =
      if msg.Level ∈ passSet c.level then store lib c msg raw else ⟨[], false⟩ := by
  unfold output
  rw [hraw]
  simp only [thresholds, levels, List.mem_cons, List.mem_singleton, List.not_mem_nil,
    or_false] at hT hL
  rcases hT with h | h | h | h | h <;> rcases hL with g | g | g | g | g | g | g <;>
    rw [h, g] <;>
    simp +decide [passSet, levels, DebugLevelTrace, DebugLevelVerbose, DebugLevelInfo,
      DebugLevelWarning, DebugLevelError, LogLevelTrace, LogLevelDebug, LogLevelNotice,
      LogLevelInfo, LogLevelWarning, LogLevelError, LogLevelSuccess]

/-! ## Claims -/

/-- C1: on an initialised logger whose threshold is one of the five and for a
record whose level is one of the seven, `output` hands the record to `store`
exactly when the level is in the pass-set of the threshold; then its effects
are those of `store`, and otherwise it has no effect at all. -/
theorem output_filter_table (lib : Lib) (c : Loggers) (msg : LoggerMessage) (lv : ColorLevel)
    (hinit : c.color = some lv) (hT : c.level ∈ thresholds) (hL : msg.Level ∈ levels) :
    ∃ raw, rawText lib c msg = .ok raw ∧
      ((Event.store msg raw ∈ (output lib c msg).events) ↔ msg.Level ∈ passSet c.level) ∧
      (msg.Level ∈ passSet c.level → output lib c msg = store lib c msg raw) ∧
      (msg.Level ∉ passSet c.level → output lib c msg = ⟨[], false⟩) := by
  obtain ⟨raw, hraw⟩ := rawText_ok lib c msg lv hinit
  obtain ⟨rest, hrest⟩ := store_events_head lib c msg raw
  refine ⟨raw, hraw, ?_⟩
  rw [output_eq_store lib c msg raw hraw hT hL]
  by_cases hp : msg.Level ∈ passSet c.level
  · simp [hp, hrest]
  · simp [hp]

/-- C1, at a concrete input: the default threshold Verbose and an Info record. -/
theorem output_filter_table_witness :
    sampleLogger.color = some ColorLevel.LevelAnsi16m ∧
    sampleLogger.level ∈ thresholds ∧
    (sampleRecord LogLevelInfo (Value.str "hello")).Level ∈ levels ∧
    ∃ raw, rawText goLib sampleLogger (sampleRecord LogLevelInfo (Value.str "hello")) = .ok raw ∧
      ((Event.store (sampleRecord LogLevelInfo (Value.str "hello")) raw ∈
          (output goLib sampleLogger (sampleRecord LogLevelInfo (Value.str "hello"))).events) ↔
        (sampleRecord LogLevelInfo (Value.str "hello")).Level ∈ passSet sampleLogger.level) ∧
      ((sampleRecord LogLevelInfo (Value.str "hello")).Level ∈ passSet sampleLogger.level →
        output goLib sampleLogger (sampleRecord LogLevelInfo (Value.str "hello")) =
          store goLib sampleLogger (sampleRecord LogLevelInfo (Value.str "hello")) raw) ∧
      ((sampleRecord LogLevelInfo (Value.str "hello")).Level ∉ passSet sampleLogger.level →
        output goLib sampleLogger (sampleRecord LogLevelInfo (Value.str "hello")) = ⟨[], false⟩) :=
  ⟨rfl, by decide, by decide,
    output_filter_table goLib sampleLogger (sampleRecord LogLevelInfo (Value.str "hello"))
      ColorLevel.LevelAnsi16m rfl (by decide) (by decide)⟩

/-- `Init` establishes the invariant. -/
theorem Init_jsonForcesNoColor (c : Loggers) (ns version : String) :
    jsonForcesNoColor (Init c ns version) := by
  intro h
  have h1 : c.outputFormat = OutputFormatJSON := h
  simp [Init, h1]

/-- `DisableColor` establishes the invariant, whatever its argument. -/
theorem DisableColor_jsonForcesNoColor (c c1 : Loggers) (val : Bool)
    (h : DisableColor c val = .ok c1) : jsonForcesNoColor c1 := by
  unfold DisableColor at h
  cases hc : c.color with
  | none => rw [hc] at h; cases h
  | some lv =>
    rw [hc] at h
    simp only [Except.ok.injEq] at h
    subst h
    intro hj
    have h1 : c.outputFormat = OutputFormatJSON := hj
    simp [h1]

/-- C2: the invariant fails after `Init` in PlainText format followed by
`SetOutputFormat(JSON)`: the format is JSON and the colour level is still
`LevelAnsi16m`; `DisableColor(false)` in that state restores it. -/
theorem SetOutputFormat_keeps_color :
    (SetOutputFormat (Init NewLib "svc" "1.0") OutputFormatJSON).outputFormat = OutputFormatJSON ∧
    (SetOutputFormat (Init NewLib "svc" "1.0") OutputFormatJSON).color
      = some ColorLevel.LevelAnsi16m ∧
    ¬ jsonForcesNoColor (SetOutputFormat (Init NewLib "svc" "1.0") OutputFormatJSON) ∧
    (∃ c, applySetters goLib (Init NewLib "svc" "1.0") [Setter.SetOutputFormat OutputFormatJSON]
        = .ok c ∧ ¬ jsonForcesNoColor c) ∧
    (∃ c, applySetters goLib (Init NewLib "svc" "1.0")
        [Setter.SetOutputFormat OutputFormatJSON, Setter.DisableColor false] = .ok c ∧
      jsonForcesNoColor c) := by
  have hbad : ¬ jsonForcesNoColor (SetOutputFormat (Init NewLib "svc" "1.0") OutputFormatJSON) := by
    intro h
    have h2 := h rfl
    revert h2
    decide
  refine ⟨rfl, rfl, hbad, ⟨_, rfl, hbad⟩, ⟨_, rfl, ?_⟩⟩
  intro _
  rfl

/-- A nil payload makes `createJSONOutput` panic, for every record. -/
theorem createJSONOutput_nil (lib : Lib) (msg : LoggerMessage) :
    createJSONOutput lib { msg with Message := Value.nil } = .error Panic.nilPointer := rfl

/-- On an initialised logger `ParsingLog` returns a line for every record. -/
theorem ParsingLog_total (lib : Lib) (c : Loggers) (msg : LoggerMessage) (lv : ColorLevel)
    (hinit : c.color = some lv) : ∃ raw, ParsingLog lib c msg = .ok raw := by
  unfold ParsingLog
  rw [hinit]
  exact ⟨_, rfl⟩

/-- C6: `Info(nil)` panics on an initialised logger in JSON output format, and
in PlainText format when the file sink is enabled with JSON forced; the
plain-text rendering of the same record does not panic. -/
theorem Info_nil_panics :
    (Info goLib (SetOutputFormat sampleLogger OutputFormatJSON) "id-1" sampleTime sampleCaller
      Value.nil []).panicked = true ∧
    (Info goLib (SetLogFile goLib sampleLogger sampleFile none "id-0" sampleTime sampleCaller).1
      "id-1" sampleTime sampleCaller Value.nil []).panicked = true ∧
    createJSONOutput goLib (sampleRecord LogLevelInfo Value.nil) = .error Panic.nilPointer ∧
    (Info goLib sampleLogger "id-1" sampleTime sampleCaller Value.nil []).panicked = false := by
  refine ⟨?_, ?_, rfl, ?_⟩ <;> decide

/-- The loop of `createMsg` on the one slice a leveled call forwards. -/
theorem flattenInput_wrapped (input : List Value) : flattenInput [Value.seq input] = input := by
  simp [flattenInput]

/-- C3: every leveled call builds its record with `createMsg` on the forwarded
slice, and the payload of that record is `Sprintf(x, args)` for a string `x`,
`Sprintf(text, args)` for an error with description `text`, and `x` itself
for any other value; the three concrete cases of the specification follow. -/
theorem createMsg_payload (lib : Lib) (c : Loggers) (id : String) (now : Time) (caller : Caller)
    (level : LogLevel) (args : List Value) :
    (∀ x, Trace lib c id now caller x args
        = output lib c (createMsg lib id now LogLevelTrace caller x [Value.seq args]) ∧
      Debug lib c id now caller x args
        = output lib c (createMsg lib id now LogLevelDebug caller x [Value.seq args]) ∧
      Notice lib c id now caller x args
        = output lib c (createMsg lib id now LogLevelNotice caller x [Value.seq args]) ∧
      Info lib c id now caller x args
        = output lib c (createMsg lib id now LogLevelInfo caller x [Value.seq args]) ∧
      Warning lib c id now caller x args
        = output lib c (createMsg lib id now LogLevelWarning caller x [Value.seq args]) ∧
      Success lib c id now caller x args
        = output lib c (createMsg lib id now LogLevelSuccess caller x [Value.seq args]) ∧
      Error lib c id now caller x args
        = output lib c (createMsg lib id now LogLevelError caller x [Value.seq args])) ∧
    (∀ s, (createMsg lib id now level caller (Value.str s) [Value.seq args]).Message
        = Value.str (lib.Sprintf s args)) ∧
    (∀ text, (createMsg lib id now level caller (Value.err text) [Value.seq args]).Message
        = Value.str (lib.Sprintf text args)) ∧
    (∀ x, (∀ s, x ≠ Value.str s) → (∀ text, x ≠ Value.err text) →
      (createMsg lib id now level caller x [Value.seq args]).Message = x) ∧
    (createMsg goLib id now level caller (Value.str "%d items") [Value.seq [Value.int 3]]).Message
      = Value.str "3 items" ∧
    (createMsg goLib id now level caller (Value.err "bad: %s")
      [Value.seq [Value.str "oops"]]).Message = Value.str "bad: oops" ∧
    (createMsg goLib id now level caller (Value.mapAny [("user", Value.str "a")])
      [Value.seq []]).Message = Value.mapAny [("user", Value.str "a")] := by
  refine ⟨fun x => ⟨rfl, rfl, rfl, rfl, rfl, rfl, rfl⟩, ?_, ?_, ?_, ?_, ?_, rfl⟩
  · intro s
    simp [createMsg, flattenInput_wrapped]
  · intro text
    simp [createMsg, flattenInput_wrapped]
  · intro x hs he
    cases x with
    | str s => exact absurd rfl (hs s)
    | err text => exact absurd rfl (he text)
    | _ => rfl
  · show Value.str (goSprintf "%d items" (flattenInput [Value.seq [Value.int 3]])) = _
    rw [flattenInput_wrapped]
    exact congrArg Value.str (by decide)
  · show Value.str (goSprintf "bad: %s" (flattenInput [Value.seq [Value.str "oops"]])) = _
    rw [flattenInput_wrapped]
    exact congrArg Value.str (by decide)

/-- C3, at a concrete input: an Info call with a mapping and with a format. -/
theorem createMsg_payload_witness :
    (∀ s, Value.int 7 ≠ Value.str s) ∧ (∀ text, Value.int 7 ≠ Value.err text) ∧
    (createMsg goLib "id-1" sampleTime LogLevelInfo sampleCaller (Value.int 7)
      [Value.seq [Value.int 3]]).Message = Value.int 7 ∧
    (createMsg goLib "id-1" sampleTime LogLevelInfo sampleCaller (Value.str "%d items")
      [Value.seq [Value.int 3]]).Message = Value.str "3 items" :=
  ⟨(fun _ h => (nomatch h)), (fun _ h => (nomatch h)),
    (createMsg_payload goLib sampleLogger "id-1" sampleTime sampleCaller LogLevelInfo
      [Value.int 3]).2.2.2.1 (Value.int 7) (fun _ h => (nomatch h)) (fun _ h => (nomatch h)),
    (createMsg_payload goLib sampleLogger "id-1" sampleTime sampleCaller LogLevelInfo
      [Value.int 3]).2.2.2.2.1⟩

/-- C10, refuted: a Trace call with format `%d-%d` and the one argument `[1, 2]`
hands `Sprintf` the single operand `[1, 2]` and builds `[1 2]-%!d(MISSING)`,
while the two arguments `1, 2` build `1-2`. -/
theorem sequence_argument_kept_whole :
    flattenInput [Value.seq [Value.seq [Value.int 1, Value.int 2]]]
      = [Value.seq [Value.int 1, Value.int 2]] ∧
    (createMsg goLib "id-1" sampleTime LogLevelTrace sampleCaller (Value.str "%d-%d")
      [Value.seq [Value.seq [Value.int 1, Value.int 2]]]).Message
      = Value.str "[1 2]-%!d(MISSING)" ∧
    (createMsg goLib "id-1" sampleTime LogLevelTrace sampleCaller (Value.str "%d-%d")
      [Value.seq [Value.int 1, Value.int 2]]).Message = Value.str "1-2" ∧
    (createMsg goLib "id-1" sampleTime LogLevelTrace sampleCaller (Value.str "%d-%d")
      [Value.seq [Value.seq [Value.int 1, Value.int 2]]]).Message
      ≠ (createMsg goLib "id-1" sampleTime LogLevelTrace sampleCaller (Value.str "%d-%d")
      [Value.seq [Value.int 1, Value.int 2]]).Message := by
  have h1 : (createMsg goLib "id-1" sampleTime LogLevelTrace sampleCaller (Value.str "%d-%d")
      [Value.seq [Value.seq [Value.int 1, Value.int 2]]]).Message
      = Value.str "[1 2]-%!d(MISSING)" := by
    show Value.str (goSprintf "%d-%d"
      (flattenInput [Value.seq [Value.seq [Value.int 1, Value.int 2]]])) = _
    rw [flattenInput_wrapped]
    exact congrArg Value.str (by decide)
  have h2 : (createMsg goLib "id-1" sampleTime LogLevelTrace sampleCaller (Value.str "%d-%d")
      [Value.seq [Value.int 1, Value.int 2]]).Message = Value.str "1-2" := by
    show Value.str (goSprintf "%d-%d" (flattenInput [Value.seq [Value.int 1, Value.int 2]])) = _
    rw [flattenInput_wrapped]
    exact congrArg Value.str (by decide)
  refine ⟨flattenInput_wrapped _, h1, h2, ?_⟩
  rw [h1, h2]
  intro h
  injection h with h
  revert h
  decide

/-- C10, amended: `createMsg` flattens one level the slice in which a leveled
call forwards its variadic arguments, so `Sprintf` receives exactly the
arguments of the call: `a1, ..., an` when they are passed separately, and the
single operand `[a1, ..., an]` when one sequence is passed. -/
theorem createMsg_forwards_arguments (lib : Lib) (id : String) (now : Time) (caller : Caller)
    (level : LogLevel) (s : String) (as : List Value) :
    (createMsg lib id now level caller (Value.str s) [Value.seq as]).Message
      = Value.str (lib.Sprintf s as) ∧
    (createMsg lib id now level caller (Value.err s) [Value.seq as]).Message
      = Value.str (lib.Sprintf s as) ∧
    (createMsg lib id now level caller (Value.str s) [Value.seq [Value.seq as]]).Message
      = Value.str (lib.Sprintf s [Value.seq as]) ∧
    (createMsg lib id now level caller (Value.err s) [Value.seq [Value.seq as]]).Message
      = Value.str (lib.Sprintf s [Value.seq as]) := by
  refine ⟨?_, ?_, ?_, ?_⟩ <;> simp [createMsg, flattenInput_wrapped]

theorem mapGet_mapSet_self (m : List (String × Value)) (k : String) (v : Value) :
    mapGet (mapSet m k v) k = some v := by
  induction m with
  | nil => simp [mapSet, mapGet]
  | cons p rest ih =>
    obtain ⟨k0, v0⟩ := p
    by_cases h : k0 = k
    · simp [mapSet, mapGet, h]
    · simp [mapSet, mapGet, h, ih]

theorem mapGet_mapSet_ne (m : List (String × Value)) (k k1 : String) (v : Value) (h : k1 ≠ k) :
    mapGet (mapSet m k v) k1 = mapGet m k1 := by
  induction m with
  | nil => simp [mapSet, mapGet, Ne.symm h]
  | cons p rest ih =>
    obtain ⟨k0, v0⟩ := p
    by_cases h0 : k0 = k
    · subst h0
      simp [mapSet, mapGet, Ne.symm h]
    · by_cases h1 : k0 = k1
      · subst h1
        simp [mapSet, mapGet, h0]
      · simp [mapSet, mapGet, h0, h1, ih]

/-- Keys outside the merged payload keep the value they had. -/
theorem mapGet_merge_other {β : Type} (f : β → Value) (kvs : List (String × β))
    (m0 : List (String × Value)) (k : String) (hk : k ∉ kvs.map Prod.fst) :
    mapGet (kvs.foldl (fun acc kv => mapSet acc kv.1 (f kv.2)) m0) k = mapGet m0 k := by
  induction kvs generalizing m0 with
  | nil => rfl
  | cons p rest ih =>
    simp only [List.map_cons, List.mem_cons, not_or] at hk
    simp only [List.foldl_cons]
    rw [ih _ hk.2]
    exact mapGet_mapSet_ne m0 p.1 k (f p.2) hk.1

/-- Every pair of the merged payload is read back. -/
theorem mapGet_merge_mem {β : Type} (f : β → Value) (kvs : List (String × β))
    (m0 : List (String × Value)) (hnd : (kvs.map Prod.fst).Nodup) (k : String) (v : β)
    (hmem : (k, v) ∈ kvs) :
    mapGet (kvs.foldl (fun acc kv => mapSet acc kv.1 (f kv.2)) m0) k = some (f v) := by
  induction kvs generalizing m0 with
  | nil => cases hmem
  | cons p rest ih =>
    simp only [List.map_cons, List.nodup_cons] at hnd
    simp only [List.foldl_cons]
    rcases List.mem_cons.mp hmem with h | h
    · subst h
      rw [mapGet_merge_other f rest _ k hnd.1]
      exact mapGet_mapSet_self m0 k (f v)
    · exact ih _ hnd.2 h

/-- The four assignments at the head of `createJSONOutput`. -/
theorem fixed_assignments (lib : Lib) (msg : LoggerMessage) :
    mapSet (mapSet (mapSet (mapSet [] "logid" (Value.str msg.ID))
      "level" (Value.str (lib.ToLower msg.LevelName)))
      "time" (Value.str (lib.Format msg.Time "2006-01-02T15:04:05.000-0700")))
      "caller" (Value.str (lib.Sprintf "%s:%d" [Value.str msg.File, Value.int msg.Line]))
      = fixedMembers lib msg := by
  simp +decide [mapSet, fixedMembers, lib.Sprintf_caller]

/-- A payload that is not nil, a string, a `map[string]interface{}` or a
`map[string]string` goes under `message`. -/
theorem jsonOut_message (lib : Lib) (msg : LoggerMessage)
    (hnil : msg.Message ≠ Value.nil) (hany : ∀ kvs, msg.Message ≠ Value.mapAny kvs)
    (hstr : ∀ kvs, msg.Message ≠ Value.mapStr kvs) :
    jsonOut lib msg = .ok (fixedMembers lib msg ++ [("message", msg.Message)]) := by
  unfold jsonOut
  simp only [fixed_assignments]
  cases hm : msg.Message with
  | nil => exact absurd hm hnil
  | mapAny kvs => exact absurd hm (hany kvs)
  | mapStr kvs => exact absurd hm (hstr kvs)
  | _ => simp +decide [reflectTypeOf, mapSet, fixedMembers]

/-- C4, refuted: the payload of type `map[string]int` with the one pair `n`, 1 has string keys, yet its
pair is not merged: the object has no member `n` and holds the whole map
under `message`. -/
theorem mapInt_payload_nested :
    ∃ m, jsonOut goLib (sampleRecord LogLevelInfo (Value.mapInt [("n", 1)])) = .ok m ∧
      mapGet m "n" = none ∧
      mapGet m "message" = some (Value.mapInt [("n", 1)]) := by
  refine ⟨_, jsonOut_message goLib (sampleRecord LogLevelInfo (Value.mapInt [("n", 1)]))
    (fun h => nomatch h) (fun _ h => nomatch h) (fun _ h => nomatch h), ?_, ?_⟩
  · simp +decide [mapGet, fixedMembers]
  · simp +decide [mapGet, fixedMembers, sampleRecord]

/-- C4, amended: for a payload of type `map[string]interface{}` (pairs `kvs`) or
`map[string]string` (pairs `svs`), the object `createJSONOutput` builds and
hands to `json.Marshal` is flat: every pair of the payload is a top-level
member, every other key keeps the fixed member `logid`, `level`, `time` or
`caller` if it is one of them and is absent otherwise, so `message` is
present only when the payload has it; `createJSONOutput` returns the
encoding of that object when marshalling succeeds and nothing when it fails,
as it does for a function value among the members.  A payload of type
`map[string]int` (pairs `ivs`) is not flattened: the object holds the four
fixed members and the whole map under `message`, and no pair of the payload
becomes a member.  The keys of a Go map are distinct, which is the
hypothesis on the pairs. -/
theorem createJSONOutput_flattens (lib : Lib) (msg : LoggerMessage)
    (kvs : List (String × Value)) (svs : List (String × String)) (ivs : List (String × Int))
    (hkvs : (kvs.map Prod.fst).Nodup) (hsvs : (svs.map Prod.fst).Nodup) :
    (∃ m, jsonOut lib { msg with Message := Value.mapAny kvs } = .ok m ∧
      createJSONOutput lib { msg with Message := Value.mapAny kvs }
        = .ok (lib.Marshal (Value.mapAny m)) ∧
      (∀ out, lib.Marshal (Value.mapAny m) = some out →
        createJSONOutput lib { msg with Message := Value.mapAny kvs } = .ok (some out)) ∧
      (lib.Marshal (Value.mapAny m) = none →
        createJSONOutput lib { msg with Message := Value.mapAny kvs } = .ok none) ∧
      (∀ k v, (k, v) ∈ kvs → mapGet m k = some v) ∧
      (∀ k, k ∉ kvs.map Prod.fst → mapGet m k = mapGet (fixedMembers lib msg) k) ∧
      ("message" ∉ kvs.map Prod.fst → mapGet m "message" = none)) ∧
    (∃ m, jsonOut lib { msg with Message := Value.mapStr svs } = .ok m ∧
      createJSONOutput lib { msg with Message := Value.mapStr svs }
        = .ok (lib.Marshal (Value.mapAny m)) ∧
      (∀ out, lib.Marshal (Value.mapAny m) = some out →
        createJSONOutput lib { msg with Message := Value.mapStr svs } = .ok (some out)) ∧
      (lib.Marshal (Value.mapAny m) = none →
        createJSONOutput lib { msg with Message := Value.mapStr svs } = .ok none) ∧
      (∀ k v, (k, v) ∈ svs → mapGet m k = some (Value.str v)) ∧
      (∀ k, k ∉ svs.map Prod.fst → mapGet m k = mapGet (fixedMembers lib msg) k) ∧
      ("message" ∉ svs.map Prod.fst → mapGet m "message" = none)) ∧
    (∃ m, jsonOut lib { msg with Message := Value.mapInt ivs } = .ok m ∧
      m = fixedMembers lib msg ++ [("message", Value.mapInt ivs)] ∧
      createJSONOutput lib { msg with Message := Value.mapInt ivs }
        = .ok (lib.Marshal (Value.mapAny m)) ∧
      (∀ out, lib.Marshal (Value.mapAny m) = some out →
        createJSONOutput lib { msg with Message := Value.mapInt ivs } = .ok (some out)) ∧
      (lib.Marshal (Value.mapAny m) = none →
        createJSONOutput lib { msg with Message := Value.mapInt ivs } = .ok none) ∧
      mapGet m "message" = some (Value.mapInt ivs) ∧
      (∀ k, k ≠ "message" → mapGet m k = mapGet (fixedMembers lib msg) k)) ∧
    createJSONOutput goLib (sampleRecord LogLevelInfo (Value.mapAny [("f", Value.func 1)]))
      = .ok none := by
  have hmsg : mapGet (fixedMembers lib msg) "message" = none := by
    simp +decide [mapGet, fixedMembers]
  refine ⟨?_, ?_, ?_, rfl⟩
  · have hj : jsonOut lib { msg with Message := Value.mapAny kvs }
        = .ok (kvs.foldl (fun acc kv => mapSet acc kv.1 (id kv.2)) (fixedMembers lib msg)) := by
      unfold jsonOut
      simp only [fixed_assignments]
      rfl
    have hc : createJSONOutput lib { msg with Message := Value.mapAny kvs }
        = .ok (lib.Marshal (Value.mapAny
            (kvs.foldl (fun acc kv => mapSet acc kv.1 (id kv.2)) (fixedMembers lib msg)))) := by
      unfold createJSONOutput
      rw [hj]
    refine ⟨_, hj, hc, ?_, ?_, ?_, ?_, ?_⟩
    · intro out hout
      rw [hc, hout]
    · intro hout
      rw [hc, hout]
    · intro k v hmem
      exact mapGet_merge_mem id kvs _ hkvs k v hmem
    · intro k hk
      exact mapGet_merge_other id kvs _ k hk
    · intro hk
      rw [mapGet_merge_other id kvs _ _ hk]
      exact hmsg
  · have hj : jsonOut lib { msg with Message := Value.mapStr svs }
        = .ok (svs.foldl (fun acc kv => mapSet acc kv.1 (Value.str kv.2))
            (fixedMembers lib msg)) := by
      unfold jsonOut
      simp only [fixed_assignments]
      rfl
    have hc : createJSONOutput lib { msg with Message := Value.mapStr svs }
        = .ok (lib.Marshal (Value.mapAny
            (svs.foldl (fun acc kv => mapSet acc kv.1 (Value.str kv.2))
              (fixedMembers lib msg)))) := by
      unfold createJSONOutput
      rw [hj]
    refine ⟨_, hj, hc, ?_, ?_, ?_, ?_, ?_⟩
    · intro out hout
      rw [hc, hout]
    · intro hout
      rw [hc, hout]
    · intro k v hmem
      exact mapGet_merge_mem Value.str svs _ hsvs k v hmem
    · intro k hk
      exact mapGet_merge_other Value.str svs _ k hk
    · intro hk
      rw [mapGet_merge_other Value.str svs _ _ hk]
      exact hmsg
  · have hj : jsonOut lib { msg with Message := Value.mapInt ivs }
        = .ok (fixedMembers lib msg ++ [("message", Value.mapInt ivs)]) :=
      jsonOut_message lib { msg with Message := Value.mapInt ivs } (fun h => nomatch h)
        (fun _ h => nomatch h) (fun _ h => nomatch h)
    have hc : createJSONOutput lib { msg with Message := Value.mapInt ivs }
        = .ok (lib.Marshal (Value.mapAny
            (fixedMembers lib msg ++ [("message", Value.mapInt ivs)]))) := by
      unfold createJSONOutput
      rw [hj]
    refine ⟨_, hj, rfl, hc, ?_, ?_, ?_, ?_⟩
    · intro out hout
      rw [hc, hout]
    · intro hout
      rw [hc, hout]
    · simp +decide [mapGet, fixedMembers]
    · intro k hk
      have hk1 : ¬ "message" = k := fun h => hk h.symm
      simp [mapGet, fixedMembers, hk1]

/-- C4, at a concrete input: the payload with the one pair `user`, `a` of either
flattened map type is merged and encoded; the payload of type
`map[string]int` with the one pair `user`, 1 is kept under `message`. -/
theorem createJSONOutput_flattens_witness :
    ([("user", Value.str "a")].map Prod.fst).Nodup ∧ ([("user", "a")].map Prod.fst).Nodup ∧
    (∃ m, jsonOut goLib (sampleRecord LogLevelInfo (Value.mapAny [("user", Value.str "a")]))
        = .ok m ∧
      mapGet m "user" = some (Value.str "a") ∧ mapGet m "message" = none ∧
      mapGet m "logid" = some (Value.str "id-1")) ∧
    createJSONOutput goLib (sampleRecord LogLevelInfo (Value.mapAny [("user", Value.str "a")]))
      = .ok (some ("\x7b\"logid\":\"id-1\",\"level\":\"info\"," ++
          "\"time\":\"2024-03-09T15:04:05.007+0700\",\"caller\":\"/srv/app/main.go:42\"," ++
          "\"user\":\"a\"\x7d")) ∧
    (∃ m, jsonOut goLib (sampleRecord LogLevelInfo (Value.mapInt [("user", 1)])) = .ok m ∧
      mapGet m "message" = some (Value.mapInt [("user", 1)]) ∧ mapGet m "user" = none) := by
  have hnd : ([("user", Value.str "a")].map Prod.fst).Nodup := by decide
  have hsd : ([("user", "a")].map Prod.fst).Nodup := by decide
  obtain ⟨⟨m, hm, _, hsome, _, hmem, hother, hmessage⟩, _, ⟨mi, hmi, _, _, _, _, himsg, hiother⟩, _⟩ :=
    createJSONOutput_flattens goLib (sampleRecord LogLevelInfo Value.nil)
      [("user", Value.str "a")] [("user", "a")] [("user", 1)] hnd hsd
  refine ⟨hnd, hsd, ⟨m, hm, hmem "user" (Value.str "a") (by simp), hmessage (by decide), ?_⟩,
    ?_, ⟨mi, hmi, himsg, ?_⟩⟩
  · rw [hother "logid" (by decide)]
    simp +decide [mapGet, fixedMembers, sampleRecord]
  · apply hsome
    have hm1 : m = [("logid", Value.str "id-1"), ("level", Value.str "info"),
        ("time", Value.str "2024-03-09T15:04:05.007+0700"),
        ("caller", Value.str "/srv/app/main.go:42"), ("user", Value.str "a")] :=
      Except.ok.inj (hm.symm.trans rfl)
    rw [hm1]
    rfl
  · rw [hiother "user" (by decide)]
    simp +decide [mapGet, fixedMembers]

/-- C5: for a string payload `s`, `createJSONOutput` marshals the object with
exactly the five members `logid` (the identifier), `level` (the lower-cased
level name), `time`, `caller` (file, a colon, the decimal line) and
`message` (the string `s` itself); a record built at level Info with payload
`hello` is encoded with `"level":"info"` and `"message":"hello"`. -/
theorem createJSONOutput_string (lib : Lib) (msg : LoggerMessage) (s : String) :
    jsonOut lib { msg with Message := Value.str s }
      = .ok [("logid", Value.str msg.ID),
             ("level", Value.str (lib.ToLower msg.LevelName)),
             ("time", Value.str (lib.Format msg.Time "2006-01-02T15:04:05.000-0700")),
             ("caller", Value.str (msg.File ++ ":" ++ decimal msg.Line)),
             ("message", Value.str s)] ∧
    createJSONOutput lib { msg with Message := Value.str s }
      = .ok (lib.Marshal (Value.mapAny
            [("logid", Value.str msg.ID),
             ("level", Value.str (lib.ToLower msg.LevelName)),
             ("time", Value.str (lib.Format msg.Time "2006-01-02T15:04:05.000-0700")),
             ("caller", Value.str (msg.File ++ ":" ++ decimal msg.Line)),
             ("message", Value.str s)])) ∧
    createJSONOutput goLib (createMsg goLib "id-1" sampleTime LogLevelInfo sampleCaller
        (Value.str "hello") [Value.seq []])
      = .ok (some ("\x7b\"logid\":\"id-1\",\"level\":\"info\"," ++
          "\"time\":\"2024-03-09T15:04:05.007+0700\",\"caller\":\"/srv/app/main.go:42\"," ++
          "\"message\":\"hello\"\x7d")) := by
  have hj : jsonOut lib { msg with Message := Value.str s }
      = .ok (fixedMembers lib msg ++ [("message", Value.str s)]) :=
    jsonOut_message lib { msg with Message := Value.str s } (fun h => nomatch h)
      (fun _ h => nomatch h) (fun _ h => nomatch h)
  refine ⟨hj, ?_, ?_⟩
  · unfold createJSONOutput
    rw [hj]
    rfl
  · rfl

/-- The text `mMsg` of `ParsingLog` in the words of `lineMessage`. -/
theorem messageText_eq (lib : Lib) (msg : LoggerMessage) :
    messageText lib msg = lineMessage lib msg.Message := by
  unfold messageText lineMessage
  cases msg.Message <;> simp [reflectTypeOf, lib.Sprintf_s]

/-- C9, refuted: a function payload has no JSON encoding, and `ParsingLog` with
colour disabled still returns a line, whose message is the `%s` formatting
of the payload. -/
theorem unserialisable_payload_line :
    sampleNoColor.color = some ColorLevel.LevelNone ∧
    goLib.Marshal (Value.func 1) = none ∧
    ParsingLog goLib sampleNoColor (sampleRecord LogLevelInfo (Value.func 1))
      = .ok (logLine "3:04:05 PM" "INFO" "svc" "pkg.Run" 42
          (goLib.Sprintf "%s" [Value.func 1])) ∧
    ¬ ∃ j, goLib.Marshal (Value.func 1) = some j ∧
      ParsingLog goLib sampleNoColor (sampleRecord LogLevelInfo (Value.func 1))
        = .ok (logLine "3:04:05 PM" "INFO" "svc" "pkg.Run" 42 j) := by
  refine ⟨rfl, rfl, ?_, ?_⟩
  · rfl
  · rintro ⟨j, hj, _⟩
    exact nomatch hj

/-- C9, amended: for a record with one of the seven levels and with colour
disabled, `ParsingLog` returns the line `[t][code][namespace][fn][line] m`
with `t` the time in the layout `3:04:05 PM`, `code` the print string of the
level, `fn` the base of the function name, `line` in decimal and `m` the
payload itself when it is a string, else its JSON encoding when marshalling
succeeds, else its `%s` formatting. -/
theorem ParsingLog_plain_line (lib : Lib) (c : Loggers) (msg : LoggerMessage)
    (hcolor : c.color = some ColorLevel.LevelNone) (hL : msg.Level ∈ levels) :
    ParsingLog lib c msg
      = .ok (logLine (lib.Format msg.Time "3:04:05 PM") (GetLogLevelPrintString msg.Level)
          c.namespace_ (filepathBase msg.FuncName) msg.Line (lineMessage lib msg.Message)) ∧
    (∀ s, msg.Message = Value.str s → lineMessage lib msg.Message = s) ∧
    (∀ j, (∀ s, msg.Message ≠ Value.str s) → lib.Marshal msg.Message = some j →
      lineMessage lib msg.Message = j) ∧
    ((∀ s, msg.Message ≠ Value.str s) → lib.Marshal msg.Message = none →
      lineMessage lib msg.Message = lib.Sprintf "%s" [msg.Message]) ∧
    GetLogLevelPrintString LogLevelTrace = "TRCE" ∧
    GetLogLevelPrintString LogLevelDebug = "DBUG" ∧
    GetLogLevelPrintString LogLevelNotice = "NTCE" ∧
    GetLogLevelPrintString LogLevelInfo = "INFO" ∧
    GetLogLevelPrintString LogLevelWarning = "WARN" ∧
    GetLogLevelPrintString LogLevelError = "EROR" ∧
    GetLogLevelPrintString LogLevelSuccess = "SUCS" := by
  refine ⟨?_, ?_, ?_, ?_, rfl, rfl, rfl, rfl, rfl, rfl, rfl⟩
  · unfold ParsingLog
    rw [hcolor]
    simp only [paint, if_true, messageText_eq]
    simp only [levels, List.mem_cons, List.mem_singleton, List.not_mem_nil, or_false] at hL
    rcases hL with h | h | h | h | h | h | h <;> rw [h] <;>
      simp +decide [lib.Sprintf_line, LogLevelTrace, LogLevelDebug, LogLevelNotice, LogLevelInfo,
        LogLevelWarning, LogLevelError, LogLevelSuccess]
  · intro s hs
    rw [hs]
    rfl
  · intro j hs hj
    unfold lineMessage
    cases hm : msg.Message with
    | str s => exact absurd hm (hs s)
    | _ => rw [hm] at hj; simp [hj]
  · intro hs hj
    unfold lineMessage
    cases hm : msg.Message with
    | str s => exact absurd hm (hs s)
    | _ => rw [hm] at hj; simp [hj]

/-- C9, at a concrete input: a Warning record with a slice payload. -/
theorem ParsingLog_plain_line_witness :
    sampleNoColor.color = some ColorLevel.LevelNone ∧
    (sampleRecord LogLevelWarning (Value.seq [Value.int 1, Value.str "a"])).Level ∈ levels ∧
    ParsingLog goLib sampleNoColor (sampleRecord LogLevelWarning (Value.seq [Value.int 1, Value.str "a"]))
      = .ok "[3:04:05 PM][WARN][svc][pkg.Run][42] [1,\"a\"]" :=
  ⟨rfl, by decide,
    ((ParsingLog_plain_line goLib sampleNoColor
      (sampleRecord LogLevelWarning (Value.seq [Value.int 1, Value.str "a"])) rfl (by decide)).1).trans
      rfl⟩

/-- The effects of `store` in order: the entry, the handler call, the PlainText
block, the JSON block. -/
theorem store_events (lib : Lib) (c : Loggers) (msg : LoggerMessage) (raw : String) :
    (store lib c msg raw).events =
      Event.store msg raw :: ((if c.onLogger then [Event.onLogger msg raw] else []) ++
        ((if c.outputFormat = OutputFormatDefault then (storeDefault lib c msg raw).events
          else []) ++
         (if c.outputFormat = OutputFormatJSON then (storeJSON lib c msg).events else []))) := by
  have hne : ¬ OutputFormatDefault = OutputFormatJSON := by decide
  have hne2 : ¬ OutputFormatJSON = OutputFormatDefault := by decide
  unfold store
  by_cases h1 : c.outputFormat = OutputFormatDefault
  · simp only [h1, hne, if_true, if_false, Outcome.andThen]
    cases (storeDefault lib c msg raw).panicked <;> simp
  · by_cases h2 : c.outputFormat = OutputFormatJSON
    · simp [h1, h2, hne2, Outcome.andThen]
    · simp [h1, h2, hne2, Outcome.andThen]

/-- The PlainText block calls no handler. -/
theorem storeDefault_no_observer (lib : Lib) (c : Loggers) (msg : LoggerMessage) (raw : String) :
    observerCalls ⟨(storeDefault lib c msg raw).events, false⟩ = [] := by
  unfold storeDefault observerCalls
  generalize createJSONOutput lib msg = r
  rcases r with _ | _ | _ <;> cases c.printToConsole <;> cases c.fileConfig.Enable <;>
    cases c.fileConfig.Json <;> cases c.writer <;> simp

/-- The JSON block calls no handler. -/
theorem storeJSON_no_observer (lib : Lib) (c : Loggers) (msg : LoggerMessage) :
    observerCalls ⟨(storeJSON lib c msg).events, false⟩ = [] := by
  unfold storeJSON observerCalls
  generalize createJSONOutput lib msg = r
  rcases r with _ | _ | _ <;> cases c.printToConsole <;> cases c.fileConfig.Enable <;>
    cases c.writer <;> simp

/-- The handler is called once by `store` when registered, with the arguments of
`store`, and never otherwise. -/
theorem observerCalls_store (lib : Lib) (c : Loggers) (msg : LoggerMessage) (raw : String) :
    observerCalls (store lib c msg raw) = if c.onLogger then [(msg, raw)] else [] := by
  have hd := storeDefault_no_observer lib c msg raw
  have hj := storeJSON_no_observer lib c msg
  unfold observerCalls at hd hj ⊢
  simp only at hd hj
  have hne : ¬ OutputFormatDefault = OutputFormatJSON := by decide
  have hne2 : ¬ OutputFormatJSON = OutputFormatDefault := by decide
  rw [store_events]
  cases c.onLogger <;> by_cases h1 : c.outputFormat = OutputFormatDefault <;>
    by_cases h2 : c.outputFormat = OutputFormatJSON <;>
    simp [h1, h2, hd, hj, hne, hne2, List.filterMap_append]

/-- C7, refuted: in JSON output format with a handler registered, an Info record
passes the default filter, its JSON form goes to the console, and the
handler is called with the empty text. -/
theorem observer_text_empty_in_json :
    sampleObserved.onLogger = true ∧
    sampleObserved.outputFormat = OutputFormatJSON ∧
    createJSONOutput goLib (sampleRecord LogLevelInfo (Value.str "hello"))
      = .ok (some ("\x7b\"logid\":\"id-1\",\"level\":\"info\"," ++
          "\"time\":\"2024-03-09T15:04:05.007+0700\",\"caller\":\"/srv/app/main.go:42\"," ++
          "\"message\":\"hello\"\x7d")) ∧
    consoleWrites (output goLib sampleObserved (sampleRecord LogLevelInfo (Value.str "hello")))
      = ["\x7b\"logid\":\"id-1\",\"level\":\"info\"," ++
          "\"time\":\"2024-03-09T15:04:05.007+0700\",\"caller\":\"/srv/app/main.go:42\"," ++
          "\"message\":\"hello\"\x7d"] ∧
    observerCalls (output goLib sampleObserved (sampleRecord LogLevelInfo (Value.str "hello")))
      = [(sampleRecord LogLevelInfo (Value.str "hello"), "")] := by
  refine ⟨rfl, rfl, rfl, ?_, rfl⟩
  decide

/-- C7, amended: on an initialised logger with a handler registered, the handler
is called exactly once for a record that passes the filter and not at all for
one that does not; its text argument is the line of `ParsingLog` when the
output format is PlainText and the empty text in any other format. -/
theorem observer_called_once (lib : Lib) (c : Loggers) (msg : LoggerMessage) (lv : ColorLevel)
    (hinit : c.color = some lv) (hobs : c.onLogger = true) (hT : c.level ∈ thresholds)
    (hL : msg.Level ∈ levels) :
    ∃ raw, (c.outputFormat = OutputFormatDefault → ParsingLog lib c msg = .ok raw) ∧
      (c.outputFormat ≠ OutputFormatDefault → raw = "") ∧
      (msg.Level ∈ passSet c.level → observerCalls (output lib c msg) = [(msg, raw)]) ∧
      (msg.Level ∉ passSet c.level → observerCalls (output lib c msg) = []) := by
  obtain ⟨raw, hraw⟩ := rawText_ok lib c msg lv hinit
  have hout := output_eq_store lib c msg raw hraw hT hL
  refine ⟨raw, ?_, ?_, ?_, ?_⟩
  · intro hf
    simpa [rawText, hf] using hraw
  · intro hf
    have h := hraw
    simp only [rawText, hf, if_false, Except.ok.injEq] at h
    exact h.symm
  · intro hp
    rw [hout, if_pos hp, observerCalls_store, hobs]
    rfl
  · intro hp
    rw [hout, if_neg hp]
    rfl

/-- C7, at a concrete input: the sample logger in PlainText format with a handler
registered and an Info record. -/
theorem observer_called_once_witness :
    (SetOnLoggerHandler sampleLogger true).color = some ColorLevel.LevelAnsi16m ∧
    (SetOnLoggerHandler sampleLogger true).onLogger = true ∧
    (SetOnLoggerHandler sampleLogger true).level ∈ thresholds ∧
    (sampleRecord LogLevelInfo (Value.str "hello")).Level ∈ levels ∧
    ∃ raw, ((SetOnLoggerHandler sampleLogger true).outputFormat = OutputFormatDefault →
        ParsingLog goLib (SetOnLoggerHandler sampleLogger true)
          (sampleRecord LogLevelInfo (Value.str "hello")) = .ok raw) ∧
      ((SetOnLoggerHandler sampleLogger true).outputFormat ≠ OutputFormatDefault → raw = "") ∧
      ((sampleRecord LogLevelInfo (Value.str "hello")).Level
          ∈ passSet (SetOnLoggerHandler sampleLogger true).level →
        observerCalls (output goLib (SetOnLoggerHandler sampleLogger true)
          (sampleRecord LogLevelInfo (Value.str "hello")))
          = [(sampleRecord LogLevelInfo (Value.str "hello"), raw)]) ∧
      ((sampleRecord LogLevelInfo (Value.str "hello")).Level
          ∉ passSet (SetOnLoggerHandler sampleLogger true).level →
        observerCalls (output goLib (SetOnLoggerHandler sampleLogger true)
          (sampleRecord LogLevelInfo (Value.str "hello"))) = []) :=
  ⟨rfl, rfl, by decide, by decide,
    observer_called_once goLib (SetOnLoggerHandler sampleLogger true)
      (sampleRecord LogLevelInfo (Value.str "hello")) ColorLevel.LevelAnsi16m rfl rfl
      (by decide) (by decide)⟩

/-- The console lines of `store`: those of the block of the current format. -/
theorem consoleWrites_store (lib : Lib) (c : Loggers) (msg : LoggerMessage) (raw : String) :
    consoleWrites (store lib c msg raw) =
      (if c.outputFormat = OutputFormatDefault then
        consoleWrites ⟨(storeDefault lib c msg raw).events, false⟩ else []) ++
      (if c.outputFormat = OutputFormatJSON then
        consoleWrites ⟨(storeJSON lib c msg).events, false⟩ else []) := by
  unfold consoleWrites
  have hne : ¬ OutputFormatDefault = OutputFormatJSON := by decide
  have hne2 : ¬ OutputFormatJSON = OutputFormatDefault := by decide
  rw [store_events]
  cases c.onLogger <;> by_cases h1 : c.outputFormat = OutputFormatDefault <;>
    by_cases h2 : c.outputFormat = OutputFormatJSON <;>
    simp [h1, h2, hne, hne2, List.filterMap_append]

/-- The file writes of `store`: those of the block of the current format. -/
theorem fileWrites_store (lib : Lib) (c : Loggers) (msg : LoggerMessage) (raw : String) :
    fileWrites (store lib c msg raw) =
      (if c.outputFormat = OutputFormatDefault then
        fileWrites ⟨(storeDefault lib c msg raw).events, false⟩ else []) ++
      (if c.outputFormat = OutputFormatJSON then
        fileWrites ⟨(storeJSON lib c msg).events, false⟩ else []) := by
  unfold fileWrites
  have hne : ¬ OutputFormatDefault = OutputFormatJSON := by decide
  have hne2 : ¬ OutputFormatJSON = OutputFormatDefault := by decide
  rw [store_events]
  cases c.onLogger <;> by_cases h1 : c.outputFormat = OutputFormatDefault <;>
    by_cases h2 : c.outputFormat = OutputFormatJSON <;>
    simp [h1, h2, hne, hne2, List.filterMap_append]

/-- The console line of the PlainText block. -/
theorem consoleWrites_storeDefault (lib : Lib) (c : Loggers) (msg : LoggerMessage)
    (raw : String) :
    consoleWrites ⟨(storeDefault lib c msg raw).events, false⟩
      = if c.printToConsole then [raw] else [] := by
  unfold storeDefault consoleWrites
  generalize createJSONOutput lib msg = r
  rcases r with _ | _ | _ <;> cases c.printToConsole <;> cases c.fileConfig.Enable <;>
    cases c.fileConfig.Json <;> cases c.writer <;> simp

/-- The file write of the PlainText block. -/
theorem fileWrites_storeDefault (lib : Lib) (c : Loggers) (msg : LoggerMessage) (raw : String) :
    fileWrites ⟨(storeDefault lib c msg raw).events, false⟩
      = if c.fileConfig.Enable = true ∧ c.writer.isSome = true then
          (if c.fileConfig.Json = true then
            (match createJSONOutput lib msg with
              | .ok (some out) => [out ++ "\n"]
              | _ => [])
           else [raw ++ "\n"])
        else [] := by
  unfold storeDefault fileWrites
  generalize createJSONOutput lib msg = r
  rcases r with _ | _ | _ <;> cases c.printToConsole <;> cases c.fileConfig.Enable <;>
    cases c.fileConfig.Json <;> cases c.writer <;> simp

/-- The console line of the JSON block. -/
theorem consoleWrites_storeJSON (lib : Lib) (c : Loggers) (msg : LoggerMessage) :
    consoleWrites ⟨(storeJSON lib c msg).events, false⟩
      = match createJSONOutput lib msg with
        | .ok (some out) => if c.printToConsole then [out] else []
        | _ => [] := by
  unfold storeJSON consoleWrites
  generalize createJSONOutput lib msg = r
  rcases r with _ | _ | _ <;> cases c.printToConsole <;> cases c.fileConfig.Enable <;>
    cases c.writer <;> simp

/-- The file write of the JSON block. -/
theorem fileWrites_storeJSON (lib : Lib) (c : Loggers) (msg : LoggerMessage) :
    fileWrites ⟨(storeJSON lib c msg).events, false⟩
      = match createJSONOutput lib msg with
        | .ok (some out) =>
          if c.fileConfig.Enable = true ∧ c.writer.isSome = true then [out ++ "\n"] else []
        | _ => [] := by
  unfold storeJSON fileWrites
  generalize createJSONOutput lib msg = r
  rcases r with _ | _ | _ <;> cases c.printToConsole <;> cases c.fileConfig.Enable <;>
    cases c.writer <;> simp

/-- C8, refuted: in PlainText format with the file sink enabled, a sink handle
present and JSON forced, a record whose payload is a function is printed on
the console and nothing is written to the file. -/
theorem unserialisable_payload_skips_file :
    sampleFiled.outputFormat = OutputFormatDefault ∧
    sampleFiled.fileConfig.Enable = true ∧ sampleFiled.writer.isSome = true ∧
    sampleFiled.fileConfig.Json = true ∧
    sampleFiled.level = DebugLevelVerbose ∧
    createJSONOutput goLib (sampleRecord LogLevelInfo (Value.func 1)) = .ok none ∧
    consoleWrites (store goLib sampleFiled (sampleRecord LogLevelInfo (Value.func 1)) "line")
      = ["line"] ∧
    fileWrites (store goLib sampleFiled (sampleRecord LogLevelInfo (Value.func 1)) "line")
      = [] := by
  refine ⟨rfl, rfl, rfl, rfl, rfl, rfl, ?_, ?_⟩ <;> decide

/-- C8, amended: in PlainText format `store` prints the plain line on the
console exactly when print-to-console is on; with the file sink enabled and
a handle present it writes the line and a newline when JSON is not forced,
and, when JSON is forced, the encoding of `createJSONOutput` and a newline
if there is one and nothing if there is none.  In JSON format an encoding
returned by `createJSONOutput` goes to the console when print-to-console is
on and, with a newline, to the file when the sink is enabled with a handle;
without an encoding neither is written.  With the file sink not enabled
nothing is written to the file. -/
theorem store_sinks (lib : Lib) (c : Loggers) (msg : LoggerMessage) (raw : String) :
    (c.outputFormat = OutputFormatDefault →
      consoleWrites (store lib c msg raw) = (if c.printToConsole then [raw] else []) ∧
      (c.fileConfig.Json = false →
        fileWrites (store lib c msg raw) =
          if c.fileConfig.Enable = true ∧ c.writer.isSome = true then [raw ++ "\n"] else []) ∧
      (c.fileConfig.Json = true → ∀ out, createJSONOutput lib msg = .ok (some out) →
        fileWrites (store lib c msg raw) =
          if c.fileConfig.Enable = true ∧ c.writer.isSome = true then [out ++ "\n"] else []) ∧
      (c.fileConfig.Json = true → createJSONOutput lib msg = .ok none →
        fileWrites (store lib c msg raw) = [])) ∧
    (c.outputFormat = OutputFormatJSON →
      (∀ out, createJSONOutput lib msg = .ok (some out) →
        consoleWrites (store lib c msg raw) = (if c.printToConsole then [out] else []) ∧
        fileWrites (store lib c msg raw) =
          if c.fileConfig.Enable = true ∧ c.writer.isSome = true then [out ++ "\n"] else []) ∧
      (createJSONOutput lib msg = .ok none →
        consoleWrites (store lib c msg raw) = [] ∧ fileWrites (store lib c msg raw) = [])) ∧
    (c.fileConfig.Enable = false → fileWrites (store lib c msg raw) = []) := by
  have hne : ¬ OutputFormatDefault = OutputFormatJSON := by decide
  have hne2 : ¬ OutputFormatJSON = OutputFormatDefault := by decide
  rw [consoleWrites_store, fileWrites_store, consoleWrites_storeDefault, fileWrites_storeDefault,
    consoleWrites_storeJSON, fileWrites_storeJSON]
  refine ⟨?_, ?_, ?_⟩
  · intro hf
    simp only [hf, hne, if_true, if_false, List.append_nil]
    refine ⟨trivial, ?_, ?_, ?_⟩
    · intro hj
      simp [hj]
    · intro hj out hout
      simp [hj, hout]
    · intro hj hout
      simp [hj, hout]
  · intro hf
    simp only [hf, hne2, if_true, if_false, List.nil_append]
    refine ⟨?_, ?_⟩
    · intro out hout
      simp [hout]
    · intro hout
      simp [hout]
  · intro he
    simp only [he]
    generalize createJSONOutput lib msg = r
    rcases r with _ | _ | _ <;> simp

/-- C8, at a concrete input: the sample logger with the file sink enabled and
JSON forced, and an Info record with a string payload. -/
theorem store_sinks_witness :
    sampleFiled.outputFormat = OutputFormatDefault ∧
    sampleFiled.fileConfig.Json = true ∧
    consoleWrites (store goLib sampleFiled (sampleRecord LogLevelInfo (Value.str "hello")) "line")
      = ["line"] ∧
    fileWrites (store goLib sampleFiled (sampleRecord LogLevelInfo (Value.str "hello")) "line")
      = ["\x7b\"logid\":\"id-1\",\"level\":\"info\"," ++
          "\"time\":\"2024-03-09T15:04:05.007+0700\",\"caller\":\"/srv/app/main.go:42\"," ++
          "\"message\":\"hello\"\x7d" ++ "\n"] :=
  ⟨rfl, rfl,
    ((store_sinks goLib sampleFiled (sampleRecord LogLevelInfo (Value.str "hello")) "line").1
      rfl).1,
    ((store_sinks goLib sampleFiled (sampleRecord LogLevelInfo (Value.str "hello")) "line").1
      rfl).2.2.1 rfl _ rfl⟩

end ModuleLog
